import Mathlib

/-!
Shallow embedding of the order-processing saga backend (NestJS + Temporal +
Prisma), covering:

* the `InventoryService` stock ledger (`decreaseStock`, `increaseStock`,
  `getStockQuantity`) with its conditional compare-and-decrement and the
  all-or-nothing Prisma transaction semantics;
* the `PaymentService` charge/refund flows and the `chargePayment` /
  `refundPayment` activity wrappers that duplicate their DB bookkeeping;
* the `processOrderWorkflow` saga orchestrator: forward steps, error
  classification, and the sequential compensation block.

Machine integers of the source (JS numbers used as integer counters) are
modelled as `Int`; database rows are lists of records; fallible operations
return `Except` or pair the new database state with an optional error,
mirroring Prisma's transaction rollback where the source relies on it.
-/

namespace ChickenBe

/-- A row of the `InventoryItem` table: `productId` is unique in the schema,
`quantity` is an integer stock count. -/
structure InventoryItem where
  productId : String
  quantity : Int
deriving DecidableEq, Repr

/-- The `InventoryItem` table. -/
abbrev Inventory := List InventoryItem

/-- An element of the `items` argument of `decreaseStock` / `increaseStock`
(`StockUpdateItem` in the source). -/
structure StockUpdateItem where
  productId : String
  quantity : Int
deriving DecidableEq, Repr

/-- The payload of the `InsufficientStockError` raised by `decreaseStock`:
the failing product, the requested quantity, and — when the row exists —
the available quantity reported by the follow-up `findUnique`
(`none` models the `not found in inventory` message). -/
structure InsufficientStock where
  productId : String
  required : Int
  available : Option Int
deriving DecidableEq, Repr

/-- `getStockQuantity`: quantity of the unique row with the given
`productId`, `none` when absent (the source returns `null`). -/
def findQty (inv : Inventory) (p : String) : Option Int :=
  (inv.find? (fun r => r.productId = p)).map (fun r => r.quantity)

/-- One `tx.inventoryItem.updateMany` of `decreaseStock`: decrement every
row matching `productId = it.productId AND quantity >= it.quantity`. -/
def decApply (inv : Inventory) (it : StockUpdateItem) : Inventory :=
  inv.map fun r =>
    if r.productId = it.productId ∧ it.quantity ≤ r.quantity then
      { r with quantity := r.quantity - it.quantity }
    else r

/-- The number of rows the conditional decrement would match
(`result.count` in the source). -/
def decMatchCount (inv : Inventory) (it : StockUpdateItem) : Nat :=
  inv.countP fun r => r.productId = it.productId ∧ it.quantity ≤ r.quantity

/-- The body of the `$transaction` of `decreaseStock`, item by item: skip
non-positive quantities; otherwise run the conditional decrement; when it
matches zero rows, look the product up on the current transaction state and
raise `InsufficientStockError`, which aborts the transaction. -/
def decTx : Inventory → List StockUpdateItem → Except InsufficientStock Inventory
  | inv, [] => .ok inv
  | inv, it :: rest =>
    if it.quantity ≤ 0 then
      decTx inv rest
    else if decMatchCount inv it = 0 then
      .error ⟨it.productId, it.quantity, findQty inv it.productId⟩
    else
      decTx (decApply inv it) rest

/-- `InventoryService.decreaseStock`: empty batches are skipped; otherwise
the transaction body runs and a raised `InsufficientStockError` rolls the
whole transaction back (the table is unchanged) and is rethrown to the
caller.  The result pairs the table after the call with the raised error,
if any. -/
def decreaseStock (inv : Inventory) (items : List StockUpdateItem) :
    Inventory × Option InsufficientStock :=
  if items.isEmpty then (inv, none)
  else
    match decTx inv items with
    | .ok inv2 => (inv2, none)
    | .error e => (inv, some e)

/-- One `tx.inventoryItem.updateMany` of `increaseStock`: increment every
row with the given `productId` (a missing row is only logged). -/
def incApply (inv : Inventory) (it : StockUpdateItem) : Inventory :=
  inv.map fun r =>
    if r.productId = it.productId then
      { r with quantity := r.quantity + it.quantity }
    else r

/-- The body of the `$transaction` of `increaseStock`: skip non-positive
quantities, otherwise unconditionally increment; never raises. -/
def incTx : Inventory → List StockUpdateItem → Inventory
  | inv, [] => inv
  | inv, it :: rest =>
    if it.quantity ≤ 0 then incTx inv rest
    else incTx (incApply inv it) rest

/-- `InventoryService.increaseStock`: empty batches are skipped; otherwise
the transaction body runs (its missing-row case only logs, so the model
never fails). -/
def increaseStock (inv : Inventory) (items : List StockUpdateItem) : Inventory :=
  if items.isEmpty then inv else incTx inv items

/-- A stock mutation request: one `decreaseStock` or one `increaseStock`
call with its batch. -/
inductive StockOp where
  | dec (items : List StockUpdateItem)
  | inc (items : List StockUpdateItem)
deriving DecidableEq, Repr

/-- Apply a sequence of `decreaseStock` / `increaseStock` calls to the
table (a failed decrement leaves the table unchanged, as the transaction
rolls back). -/
def applyOps (inv : Inventory) : List StockOp → Inventory
  | [] => inv
  | .dec items :: rest => applyOps (decreaseStock inv items).1 rest
  | .inc items :: rest => applyOps (increaseStock inv items) rest

/-- Every row's quantity is non-negative. -/
def Nonneg (inv : Inventory) : Prop := ∀ r ∈ inv, 0 ≤ r.quantity

instance (inv : Inventory) : Decidable (Nonneg inv) := by
  unfold Nonneg; infer_instance

/-! ### Basic lemmas about the inventory primitives -/

theorem decApply_nonneg {inv : Inventory} (h : Nonneg inv) (it : StockUpdateItem) :
    Nonneg (decApply inv it) := by
  intro r hr
  rcases List.mem_map.1 hr with ⟨s, hs, rfl⟩
  by_cases hc : s.productId = it.productId ∧ it.quantity ≤ s.quantity
  · simp only [hc, if_pos, and_self]
    simpa using sub_nonneg.2 hc.2
  · simpa [hc] using h s hs

theorem incApply_nonneg {inv : Inventory} (h : Nonneg inv) {it : StockUpdateItem}
    (hq : 0 ≤ it.quantity) : Nonneg (incApply inv it) := by
  intro r hr
  rcases List.mem_map.1 hr with ⟨s, hs, rfl⟩
  by_cases hc : s.productId = it.productId
  · simp only [hc, if_pos]
    exact add_nonneg (h s hs) hq
  · simpa [hc] using h s hs

theorem decTx_nonneg {inv : Inventory} (h : Nonneg inv) (items : List StockUpdateItem)
    {inv2 : Inventory} (hok : decTx inv items = .ok inv2) : Nonneg inv2 := by
  induction items generalizing inv with
  | nil => simp only [decTx] at hok; cases hok; exact h
  | cons it rest ih =>
    simp only [decTx] at hok
    by_cases h0 : it.quantity ≤ 0
    · rw [if_pos h0] at hok
      exact ih h hok
    · rw [if_neg h0] at hok
      by_cases hm : decMatchCount inv it = 0
      · rw [if_pos hm] at hok; cases hok
      · rw [if_neg hm] at hok
        exact ih (decApply_nonneg h it) hok

theorem incTx_nonneg {inv : Inventory} (h : Nonneg inv) (items : List StockUpdateItem) :
    Nonneg (incTx inv items) := by
  induction items generalizing inv with
  | nil => exact h
  | cons it rest ih =>
    simp only [incTx]
    by_cases h0 : it.quantity ≤ 0
    · rw [if_pos h0]; exact ih h
    · rw [if_neg h0]
      exact ih (incApply_nonneg h (le_of_lt (lt_of_not_le h0)))

theorem decreaseStock_nonneg {inv : Inventory} (h : Nonneg inv)
    (items : List StockUpdateItem) : Nonneg (decreaseStock inv items).1 := by
  unfold decreaseStock
  by_cases he : items.isEmpty
  · rw [if_pos he]; exact h
  · rw [if_neg he]
    cases hd : decTx inv items with
    | ok inv2 => exact decTx_nonneg h items hd
    | error e => exact h

theorem increaseStock_nonneg {inv : Inventory} (h : Nonneg inv)
    (items : List StockUpdateItem) : Nonneg (increaseStock inv items) := by
  unfold increaseStock
  by_cases he : items.isEmpty
  · rw [if_pos he]; exact h
  · rw [if_neg he]; exact incTx_nonneg h items

theorem decApply_pid (r : InventoryItem) (it : StockUpdateItem) :
    (if r.productId = it.productId ∧ it.quantity ≤ r.quantity then
      { r with quantity := r.quantity - it.quantity } else r).productId = r.productId := by
  by_cases hc : r.productId = it.productId ∧ it.quantity ≤ r.quantity <;> simp [hc]

theorem incApply_pid (r : InventoryItem) (it : StockUpdateItem) :
    (if r.productId = it.productId then
      { r with quantity := r.quantity + it.quantity } else r).productId = r.productId := by
  by_cases hc : r.productId = it.productId <;> simp [hc]

theorem find?_decApply (inv : Inventory) (it : StockUpdateItem) (p : String) :
    (decApply inv it).find? (fun r => r.productId = p)
      = (inv.find? (fun r => r.productId = p)).map
          (fun r => if r.productId = it.productId ∧ it.quantity ≤ r.quantity then
              { r with quantity := r.quantity - it.quantity } else r) := by
  induction inv with
  | nil => rfl
  | cons r rest ih =>
    by_cases hp : r.productId = p
    · rw [decApply, List.map_cons,
        List.find?_cons_of_pos _ (by simp only [decide_eq_true_eq, decApply_pid]; exact hp),
        List.find?_cons_of_pos _ (by simpa using hp)]
      rfl
    · rw [decApply, List.map_cons,
        List.find?_cons_of_neg _ (by simp only [decide_eq_true_eq, decApply_pid]; exact hp),
        List.find?_cons_of_neg _ (by simpa using hp)]
      exact ih

theorem find?_incApply (inv : Inventory) (it : StockUpdateItem) (p : String) :
    (incApply inv it).find? (fun r => r.productId = p)
      = (inv.find? (fun r => r.productId = p)).map
          (fun r => if r.productId = it.productId then
              { r with quantity := r.quantity + it.quantity } else r) := by
  induction inv with
  | nil => rfl
  | cons r rest ih =>
    by_cases hp : r.productId = p
    · rw [incApply, List.map_cons,
        List.find?_cons_of_pos _ (by simp only [decide_eq_true_eq, incApply_pid]; exact hp),
        List.find?_cons_of_pos _ (by simpa using hp)]
      rfl
    · rw [incApply, List.map_cons,
        List.find?_cons_of_neg _ (by simp only [decide_eq_true_eq, incApply_pid]; exact hp),
        List.find?_cons_of_neg _ (by simpa using hp)]
      exact ih

theorem findQty_decApply_ne (inv : Inventory) (it : StockUpdateItem) {p : String}
    (hp : p ≠ it.productId) : findQty (decApply inv it) p = findQty inv p := by
  unfold findQty
  rw [find?_decApply]
  cases hf : inv.find? (fun r => r.productId = p) with
  | none => rfl
  | some r =>
    have hr : r.productId = p := by simpa using List.find?_some hf
    have : ¬(r.productId = it.productId ∧ it.quantity ≤ r.quantity) := by
      intro hc
      exact hp (hr ▸ hc.1)
    simp [this]

theorem findQty_incApply_ne (inv : Inventory) (it : StockUpdateItem) {p : String}
    (hp : p ≠ it.productId) : findQty (incApply inv it) p = findQty inv p := by
  unfold findQty
  rw [find?_incApply]
  cases hf : inv.find? (fun r => r.productId = p) with
  | none => rfl
  | some r =>
    have hr : r.productId = p := by simpa using List.find?_some hf
    have : ¬(r.productId = it.productId) := fun hc => hp (hr ▸ hc)
    simp [this]

theorem pids_decApply (inv : Inventory) (it : StockUpdateItem) :
    (decApply inv it).map (fun r => r.productId) = inv.map (fun r => r.productId) := by
  unfold decApply
  rw [List.map_map]
  exact List.map_congr_left fun r _ => decApply_pid r it

/-- Rows with the same `productId` coincide when the productId column has no
duplicates (the schema's `@unique` constraint). -/
theorem eq_of_pid_nodup {inv : Inventory}
    (h : (inv.map (fun r => r.productId)).Nodup) {a b : InventoryItem}
    (ha : a ∈ inv) (hb : b ∈ inv) (hpid : a.productId = b.productId) : a = b := by
  have hnd : inv.Nodup := h.of_map
  exact ((List.nodup_map_iff_inj_on hnd).1 h) a ha b hb hpid

theorem decMatchCount_pos {inv : Inventory} {it : StockUpdateItem} {r : InventoryItem}
    (hf : inv.find? (fun s => s.productId = it.productId) = some r)
    (hq : it.quantity ≤ r.quantity) : decMatchCount inv it ≠ 0 := by
  have hmem := List.mem_of_find?_eq_some hf
  have hr : r.productId = it.productId := by simpa using List.find?_some hf
  have : 0 < decMatchCount inv it := by
    rw [decMatchCount, List.countP_pos_iff]
    exact ⟨r, hmem, by simp [hr, hq]⟩
  omega

/-- When the conditional decrement matched at least one row and the
productId column has no duplicates, the looked-up row itself matched and is
decremented. -/
theorem findQty_decApply_matched {inv : Inventory} {it : StockUpdateItem} {r : InventoryItem}
    (hnd : (inv.map (fun s => s.productId)).Nodup)
    (hf : inv.find? (fun s => s.productId = it.productId) = some r)
    (hm : decMatchCount inv it ≠ 0) :
    it.quantity ≤ r.quantity ∧
      findQty (decApply inv it) it.productId = some (r.quantity - it.quantity) := by
  have hr : r.productId = it.productId := by simpa using List.find?_some hf
  have hmem := List.mem_of_find?_eq_some hf
  have hpos : 0 < decMatchCount inv it := Nat.pos_of_ne_zero hm
  rw [decMatchCount, List.countP_pos_iff] at hpos
  obtain ⟨s, hs, hsp⟩ := hpos
  have hsp2 : s.productId = it.productId ∧ it.quantity ≤ s.quantity := by simpa using hsp
  have hseq : s = r := eq_of_pid_nodup hnd hs hmem (hsp2.1.trans hr.symm)
  have hq : it.quantity ≤ r.quantity := hseq ▸ hsp2.2
  refine ⟨hq, ?_⟩
  unfold findQty
  rw [find?_decApply, hf]
  simp [hr, hq]

theorem findQty_incApply_self {inv : Inventory} {it : StockUpdateItem} {q : Int}
    (hf : findQty inv it.productId = some q) :
    findQty (incApply inv it) it.productId = some (q + it.quantity) := by
  unfold findQty at hf ⊢
  rw [find?_incApply]
  cases hfr : inv.find? (fun r => r.productId = it.productId) with
  | none => rw [hfr] at hf; cases hf
  | some r =>
    rw [hfr] at hf
    have hr : r.productId = it.productId := by simpa using List.find?_some hfr
    have hrq : r.quantity = q := by simpa using hf
    simp [hr, hrq]

/-- Products whose id is requested by no item of the transaction body keep
their quantity. -/
theorem decTx_findQty_not_mem {items : List StockUpdateItem} {inv inv2 : Inventory}
    {p : String} (hni : ∀ it ∈ items, it.productId ≠ p)
    (hok : decTx inv items = .ok inv2) : findQty inv2 p = findQty inv p := by
  induction items generalizing inv with
  | nil => simp only [decTx] at hok; cases hok; rfl
  | cons it rest ih =>
    simp only [decTx] at hok
    by_cases h0 : it.quantity ≤ 0
    · rw [if_pos h0] at hok
      exact ih (fun s hs => hni s (List.mem_cons_of_mem it hs)) hok
    · rw [if_neg h0] at hok
      by_cases hm : decMatchCount inv it = 0
      · rw [if_pos hm] at hok; cases hok
      · rw [if_neg hm] at hok
        rw [ih (fun s hs => hni s (List.mem_cons_of_mem it hs)) hok]
        exact findQty_decApply_ne inv it fun hp => hni it (List.mem_cons_self it rest) hp.symm

/-- On a transaction body that commits, every requested item with positive
quantity is decremented by exactly its requested quantity (productId
columns assumed duplicate-free on both sides). -/
theorem decTx_decrements {items : List StockUpdateItem} {inv inv2 : Inventory}
    (hinv : (inv.map (fun r => r.productId)).Nodup)
    (hitems : (items.map (fun it => it.productId)).Nodup)
    {it : StockUpdateItem} (hmem : it ∈ items) (hq : 0 < it.quantity)
    (hok : decTx inv items = .ok inv2) :
    findQty inv2 it.productId = (findQty inv it.productId).map (fun q => q - it.quantity) := by
  induction items generalizing inv with
  | nil => cases hmem
  | cons h rest ih =>
    simp only [List.map_cons, List.nodup_cons] at hitems
    simp only [decTx] at hok
    by_cases h0 : h.quantity ≤ 0
    · rw [if_pos h0] at hok
      rcases List.mem_cons.1 hmem with rfl | hmem2
      · omega
      · exact ih hinv hitems.2 hmem2 hok
    · rw [if_neg h0] at hok
      by_cases hm : decMatchCount inv h = 0
      · rw [if_pos hm] at hok; cases hok
      · rw [if_neg hm] at hok
        have hinv2 : ((decApply inv h).map (fun r => r.productId)).Nodup := by
          rw [pids_decApply]; exact hinv
        rcases List.mem_cons.1 hmem with rfl | hmem2
        · cases hfr : inv.find? (fun s => s.productId = it.productId) with
          | none =>
            exfalso
            apply hm
            rw [decMatchCount, List.countP_eq_zero]
            intro s hs
            have hnone := List.find?_eq_none.1 hfr s hs
            simp only [decide_eq_true_eq] at hnone ⊢
            intro hsp
            exact hnone hsp.1
          | some r =>
            obtain ⟨hle, hdec⟩ := findQty_decApply_matched hinv hfr hm
            have hrest : findQty inv2 it.productId = findQty (decApply inv it) it.productId := by
              refine decTx_findQty_not_mem (fun s hs hp => ?_) hok
              exact hitems.1 (hp ▸ List.mem_map_of_mem _ hs)
            rw [hrest, hdec]
            unfold findQty
            rw [hfr]
            rfl
        · have hne : it.productId ≠ h.productId := by
            intro hpe
            exact hitems.1 (hpe ▸ List.mem_map_of_mem _ hmem2)
          rw [ih hinv2 hitems.2 hmem2 hok, findQty_decApply_ne inv h hne]

/-- A transaction body that aborts reports a requested item with positive
quantity, its requested quantity, and the quantity available in the table
at entry (`none` when the row is missing). -/
theorem decTx_error {items : List StockUpdateItem} {inv : Inventory}
    {e : InsufficientStock}
    (hinv : (inv.map (fun r => r.productId)).Nodup)
    (hitems : (items.map (fun it => it.productId)).Nodup)
    (herr : decTx inv items = .error e) :
    ∃ it ∈ items, e.productId = it.productId ∧ e.required = it.quantity ∧
      0 < it.quantity ∧ e.available = findQty inv it.productId := by
  induction items generalizing inv with
  | nil =>
    simp only [decTx] at herr
    exact Except.noConfusion herr
  | cons h rest ih =>
    simp only [List.map_cons, List.nodup_cons] at hitems
    simp only [decTx] at herr
    by_cases h0 : h.quantity ≤ 0
    · rw [if_pos h0] at herr
      obtain ⟨it, hmem, hprop⟩ := ih hinv hitems.2 herr
      exact ⟨it, List.mem_cons_of_mem h hmem, hprop⟩
    · rw [if_neg h0] at herr
      by_cases hm : decMatchCount inv h = 0
      · rw [if_pos hm] at herr
        cases herr
        exact ⟨h, List.mem_cons_self h rest, rfl, rfl, by omega, rfl⟩
      · rw [if_neg hm] at herr
        have hinv2 : ((decApply inv h).map (fun r => r.productId)).Nodup := by
          rw [pids_decApply]; exact hinv
        obtain ⟨it, hmem, hpe, hre, hqe, hae⟩ := ih hinv2 hitems.2 herr
        refine ⟨it, List.mem_cons_of_mem h hmem, hpe, hre, hqe, ?_⟩
        rw [hae]
        refine findQty_decApply_ne inv h ?_
        intro hpeq
        exact hitems.1 (hpeq ▸ List.mem_map_of_mem _ hmem)

/-- **C1.** For every inventory state with non-negative quantities and every
sequence of `decreaseStock` / `increaseStock` batches, no row's quantity is
ever driven below zero: the conditional compare-and-decrement only fires
when the current quantity is at least the requested quantity, and
`increaseStock` only adds. -/
theorem stock_never_negative (inv : Inventory) (ops : List StockOp)
    (h : Nonneg inv) : Nonneg (applyOps inv ops) := by
  induction ops generalizing inv with
  | nil => exact h
  | cons op rest ih =>
    cases op with
    | dec items => exact ih _ (decreaseStock_nonneg h items)
    | inc items => exact ih _ (increaseStock_nonneg h items)

/-- Witness for C1 at a concrete inventory and op sequence. -/
theorem stock_never_negative_witness :
    Nonneg [⟨"p1", 3⟩, ⟨"p2", 1⟩] ∧
      Nonneg (applyOps [⟨"p1", 3⟩, ⟨"p2", 1⟩]
        [.dec [⟨"p1", 2⟩], .inc [⟨"p2", 5⟩], .dec [⟨"p1", 9⟩]]) :=
  ⟨by decide, stock_never_negative _ _ (by decide)⟩

/-- **C2.** `decreaseStock(items)` is all-or-nothing (productId columns are
duplicate-free per the schema and request validation): when any item's
conditional decrement matches zero rows, the call reports an
`InsufficientStockError` naming a requested product, its requested
quantity and — when the row exists — its available quantity, and leaves
every row of the table unchanged; when no item fails, every item with
positive quantity is decremented by its requested quantity. -/
theorem decreaseStock_all_or_nothing (inv : Inventory) (items : List StockUpdateItem)
    (hinv : (inv.map (fun r => r.productId)).Nodup)
    (hitems : (items.map (fun it => it.productId)).Nodup) :
    (∀ inv2 e, decreaseStock inv items = (inv2, some e) →
      inv2 = inv ∧ ∃ it ∈ items, e.productId = it.productId ∧ e.required = it.quantity ∧
        0 < it.quantity ∧ e.available = findQty inv it.productId) ∧
    (∀ inv2, decreaseStock inv items = (inv2, none) →
      ∀ it ∈ items, 0 < it.quantity →
        findQty inv2 it.productId = (findQty inv it.productId).map (fun q => q - it.quantity)) := by
  constructor
  · intro inv2 e hcall
    unfold decreaseStock at hcall
    by_cases he : items.isEmpty
    · rw [if_pos he] at hcall
      injection hcall with h1 h2
      exact Option.noConfusion h2
    · rw [if_neg he] at hcall
      cases hd : decTx inv items with
      | ok v =>
        rw [hd] at hcall
        injection hcall with h1 h2
        exact Option.noConfusion h2
      | error e2 =>
        rw [hd] at hcall
        injection hcall with h1 h2
        injection h2 with h3
        subst h3
        exact ⟨h1.symm, decTx_error hinv hitems hd⟩
  · intro inv2 hcall it hmem hq
    unfold decreaseStock at hcall
    by_cases he : items.isEmpty
    · rw [List.isEmpty_iff] at he
      subst he
      cases hmem
    · rw [if_neg (by simp [he])] at hcall
      cases hd : decTx inv items with
      | ok v =>
        rw [hd] at hcall
        injection hcall with h1 h2
        subst h1
        exact decTx_decrements hinv hitems hmem hq hd
      | error e2 =>
        rw [hd] at hcall
        injection hcall with h1 h2
        exact Option.noConfusion h2

/-- Witness for C2: decrementing product a by 3 out of 5 succeeds and its
quantity drops by exactly 3. -/
theorem decreaseStock_all_or_nothing_witness :
    findQty [⟨"a", 2⟩, ⟨"b", 2⟩] "a"
      = (findQty [⟨"a", 5⟩, ⟨"b", 2⟩] "a").map (fun q => q - 3) := by
  have h := decreaseStock_all_or_nothing [⟨"a", 5⟩, ⟨"b", 2⟩] [⟨"a", 3⟩]
    (by decide) (by decide)
  exact h.2 [⟨"a", 2⟩, ⟨"b", 2⟩] (by decide) ⟨"a", 3⟩ (by decide) (by decide)

/-- **C8.** For a product present in inventory with quantity `Q ≥ N` and
`N > 0`, `decreaseStock` by `N` followed by `increaseStock` by `N` returns
the product's quantity to its original value `Q`. -/
theorem decrease_increase_roundtrip (inv : Inventory) (p : String) (N Q : Int)
    (hN : 0 < N) (hfind : findQty inv p = some Q) (hQ : N ≤ Q) :
    ∃ inv1, decreaseStock inv [⟨p, N⟩] = (inv1, none) ∧
      findQty (increaseStock inv1 [⟨p, N⟩]) p = some Q := by
  unfold findQty at hfind
  cases hfr : inv.find? (fun r => r.productId = p) with
  | none => rw [hfr] at hfind; cases hfind
  | some r =>
    rw [hfr] at hfind
    have hrq : r.quantity = Q := by simpa using hfind
    have hrp : r.productId = p := by simpa using List.find?_some hfr
    have hfr2 : inv.find? (fun s => s.productId = (⟨p, N⟩ : StockUpdateItem).productId)
        = some r := hfr
    have hm : decMatchCount inv ⟨p, N⟩ ≠ 0 :=
      @decMatchCount_pos inv ⟨p, N⟩ r hfr2 (by rw [hrq]; exact hQ)
    have hdec : decTx inv [⟨p, N⟩] = .ok (decApply inv ⟨p, N⟩) := by
      simp only [decTx]
      rw [if_neg (not_le.mpr hN), if_neg hm]
    have hdq : findQty (decApply inv ⟨p, N⟩) p = some (Q - N) := by
      unfold findQty
      rw [find?_decApply, hfr]
      simp [hrp, hrq, hQ]
    refine ⟨decApply inv ⟨p, N⟩, ?_, ?_⟩
    · unfold decreaseStock
      rw [if_neg (by simp), hdec]
    · have hinc : increaseStock (decApply inv ⟨p, N⟩) [⟨p, N⟩]
          = incApply (decApply inv ⟨p, N⟩) ⟨p, N⟩ := by
        unfold increaseStock
        rw [if_neg (by simp)]
        simp only [incTx]
        rw [if_neg (not_le.mpr hN)]
      rw [hinc]
      have hres := @findQty_incApply_self (decApply inv ⟨p, N⟩) ⟨p, N⟩ (Q - N) hdq
      rw [show Q - N + N = Q by ring] at hres
      exact hres

/-- Witness for C8 at a concrete inventory. -/
theorem decrease_increase_roundtrip_witness :
    ∃ inv1, decreaseStock [⟨"a", 4⟩] [⟨"a", 3⟩] = (inv1, none) ∧
      findQty (increaseStock inv1 [⟨"a", 3⟩]) "a" = some 4 :=
  decrease_increase_roundtrip [⟨"a", 4⟩] "a" 3 4 (by decide) (by decide) (by decide)

/-! ### Payment ledger

`PaymentService.charge` / `PaymentService.refund` and the `chargePayment` /
`refundPayment` activity wrappers from the order activities file.  The
gateway's simulated coin flips (`Math.random`) are a boolean parameter
`gatewayOk`, the generated uuid an explicit `extTxId` parameter, and Prisma
row ids are `Nat` parameters (`nextId` names the next fresh id). -/

/-- The `PaymentStatus` enum of the Prisma schema. -/
inductive PaymentStatus where
  | PENDING
  | SUCCEEDED
  | FAILED
  | REFUND_INITIATED
  | REFUNDED
  | REFUND_FAILED
deriving DecidableEq, Repr

/-- A row of the `PaymentTransaction` table. -/
structure PaymentTx where
  id : Nat
  orderId : String
  amount : Int
  status : PaymentStatus
  externalTransactionId : Option String
deriving DecidableEq, Repr

/-- The `PaymentTransaction` table. -/
abbrev PaymentDb := List PaymentTx

/-- `prisma.paymentTransaction.update({ where: { id }, data })`. -/
def updateTx (db : PaymentDb) (recordId : Nat) (f : PaymentTx → PaymentTx) : PaymentDb :=
  db.map fun t => if t.id = recordId then f t else t

/-- `prisma.paymentTransaction.findUnique({ where: { id } })`. -/
def findTx (db : PaymentDb) (recordId : Nat) : Option PaymentTx :=
  db.find? fun t => t.id = recordId

/-- Status-only row update. -/
def setStatus (s : PaymentStatus) (t : PaymentTx) : PaymentTx := { t with status := s }

/-- Result of a charge call: the table afterwards, and
`some (transactionId, paymentRecordId)` on success, `none` when a
`PaymentFailedError` is raised. -/
structure ChargeRun where
  db : PaymentDb
  result : Option (String × Nat)
deriving DecidableEq, Repr

/-- `PaymentService.charge`: create a PENDING `PaymentTransaction` row,
simulate the gateway, then transition that row to SUCCEEDED (recording the
external id) and return both ids, or to FAILED and raise
`PaymentFailedError`. -/
def serviceCharge (db : PaymentDb) (recordId : Nat) (orderId : String) (amount : Int)
    (gatewayOk : Bool) (extTxId : String) : ChargeRun :=
  let db1 := db ++ [⟨recordId, orderId, amount, .PENDING, none⟩]
  if gatewayOk then
    ⟨updateTx db1 recordId (fun t =>
        { t with status := .SUCCEEDED, externalTransactionId := some extTxId }),
      some (extTxId, recordId)⟩
  else
    ⟨updateTx db1 recordId (setStatus .FAILED), none⟩

/-- The `chargePayment` activity: create its own PENDING
`PaymentTransaction` row, call `paymentService.charge` (which creates a
second row), then transition its own row to SUCCEEDED with the returned
external id — returning its own row id as `paymentRecordId` — or to FAILED,
rethrowing the `PaymentFailedError`. -/
def chargePaymentActivity (db : PaymentDb) (nextId : Nat) (orderId : String) (amount : Int)
    (gatewayOk : Bool) (extTxId : String) : ChargeRun :=
  let db1 := db ++ [⟨nextId, orderId, amount, .PENDING, none⟩]
  let svc := serviceCharge db1 (nextId + 1) orderId amount gatewayOk extTxId
  match svc.result with
  | some (tx, _svcRecordId) =>
    ⟨updateTx svc.db nextId (fun t =>
        { t with status := .SUCCEEDED, externalTransactionId := some tx }),
      some (tx, nextId)⟩
  | none =>
    ⟨updateTx svc.db nextId (setStatus .FAILED), none⟩

/-- Result of a refund call: the table afterwards, whether the external
gateway's refund was actually invoked, and the raised error, if any. -/
structure RefundRun where
  db : PaymentDb
  gatewayInvoked : Bool
  raised : Option String
deriving DecidableEq, Repr

/-- `PaymentService.refund`: look the transaction up; missing record
raises; a record not in SUCCEEDED state is a no-op (idempotent
short-circuit); otherwise transition SUCCEEDED → REFUND_INITIATED, invoke
the gateway refund, and transition to REFUNDED, or to REFUND_FAILED and
raise. -/
def serviceRefund (db : PaymentDb) (recordId : Nat) (gatewayOk : Bool) : RefundRun :=
  match findTx db recordId with
  | none => ⟨db, false, some "Payment transaction record not found."⟩
  | some t =>
    if t.status ≠ PaymentStatus.SUCCEEDED then ⟨db, false, none⟩
    else
      let db1 := updateTx db recordId (setStatus .REFUND_INITIATED)
      if gatewayOk then
        ⟨updateTx db1 recordId (setStatus .REFUNDED), true, none⟩
      else
        ⟨updateTx db1 recordId (setStatus .REFUND_FAILED), true,
          some "Mock payment gateway failed to process refund."⟩

/-- The `refundPayment` compensation activity: first set the record to
REFUND_INITIATED, then call `paymentService.refund`, then mark the record
REFUNDED on success, or REFUND_FAILED and rethrow on failure. -/
def refundPaymentActivity (db : PaymentDb) (recordId : Nat) (gatewayOk : Bool) : RefundRun :=
  let db0 := updateTx db recordId (setStatus .REFUND_INITIATED)
  let svc := serviceRefund db0 recordId gatewayOk
  match svc.raised with
  | none => ⟨updateTx svc.db recordId (setStatus .REFUNDED), svc.gatewayInvoked, none⟩
  | some m =>
    ⟨updateTx svc.db recordId (setStatus .REFUND_FAILED), svc.gatewayInvoked,
      some ("Failed to refund payment record: " ++ m)⟩

theorem updateTx_fresh {db : PaymentDb} {recordId : Nat}
    (h : ∀ t ∈ db, t.id ≠ recordId) (f : PaymentTx → PaymentTx) :
    updateTx db recordId f = db :=
  (List.map_congr_left fun t ht => by rw [if_neg (h t ht)]; rfl).trans (List.map_id db)

/-- **C4 (divergence exhibit).** On a SUCCEEDED payment record with a
failing gateway: `PaymentService.refund` alone behaves exactly as the spec
says (SUCCEEDED → REFUND_INITIATED, gateway invoked, REFUND_FAILED
recorded and raised), but through the orchestrator's `refundPayment`
compensation the record is first set to REFUND_INITIATED, so the service's
SUCCEEDED check short-circuits: the gateway refund is never invoked, no
error is raised, and the record ends REFUNDED. -/
theorem refund_gateway_never_invoked :
    serviceRefund [⟨1, "o1", 20, .SUCCEEDED, some "TX"⟩] 1 false
      = ⟨[⟨1, "o1", 20, .REFUND_FAILED, some "TX"⟩], true,
          some "Mock payment gateway failed to process refund."⟩ ∧
    refundPaymentActivity [⟨1, "o1", 20, .SUCCEEDED, some "TX"⟩] 1 false
      = ⟨[⟨1, "o1", 20, .REFUNDED, some "TX"⟩], false, none⟩ := by
  constructor <;> rfl

/-- **C5 (counterexample).** A single invocation of the `chargePayment`
activity on an empty table creates two `PaymentTransaction` rows, not one:
the activity's own row and the row created inside
`PaymentService.charge`. -/
theorem charge_creates_two_rows_counterexample :
    chargePaymentActivity [] 1 "o1" 20 true "TX1"
      = ⟨[⟨1, "o1", 20, .SUCCEEDED, some "TX1"⟩, ⟨2, "o1", 20, .SUCCEEDED, some "TX1"⟩],
          some ("TX1", 1)⟩ ∧
    (chargePaymentActivity [] 1 "o1" 20 true "TX1").db.length ≠ 1 := by
  constructor
  · rfl
  · decide

/-- **C5 (amended).** Every invocation of the `chargePayment` activity
creates exactly two PENDING `PaymentTransaction` rows — one by the activity
itself and one inside `PaymentService.charge` — and both are transitioned
to SUCCEEDED (recording the external transaction id) when the gateway
accepts, or to FAILED when it declines; the id returned as
`paymentRecordId` is the activity's own row. -/
theorem charge_creates_two_rows (db : PaymentDb) (nextId : Nat) (orderId : String)
    (amount : Int) (gatewayOk : Bool) (extTxId : String)
    (hfresh : ∀ t ∈ db, t.id ≠ nextId ∧ t.id ≠ nextId + 1) :
    chargePaymentActivity db nextId orderId amount gatewayOk extTxId
      = if gatewayOk then
          ⟨db ++ [⟨nextId, orderId, amount, .SUCCEEDED, some extTxId⟩,
              ⟨nextId + 1, orderId, amount, .SUCCEEDED, some extTxId⟩],
            some (extTxId, nextId)⟩
        else
          ⟨db ++ [⟨nextId, orderId, amount, .FAILED, none⟩,
              ⟨nextId + 1, orderId, amount, .FAILED, none⟩], none⟩ := by
  have hne : ¬(nextId = nextId + 1) := by omega
  have hdb1 : ∀ f, updateTx db nextId f = db :=
    fun f => updateTx_fresh (fun t ht => (hfresh t ht).1) f
  have hdb2 : ∀ f, updateTx db (nextId + 1) f = db :=
    fun f => updateTx_fresh (fun t ht => (hfresh t ht).2) f
  cases gatewayOk with
  | true =>
    simp only [chargePaymentActivity, serviceCharge, if_true, List.append_assoc,
      List.cons_append, List.nil_append, updateTx, List.map_append, List.map_cons,
      List.map_nil, if_pos rfl, if_neg hne]
    simp only [updateTx] at hdb1 hdb2
    simp [hdb1, hdb2, hne]
  | false =>
    simp only [chargePaymentActivity, serviceCharge, Bool.false_eq_true, if_false,
      List.append_assoc, List.cons_append, List.nil_append, updateTx, List.map_append,
      List.map_cons, List.map_nil, if_pos rfl, if_neg hne]
    simp only [updateTx] at hdb1 hdb2
    simp [hdb1, hdb2, hne, setStatus]

/-- Witness for the C5 amended claim at a concrete call. -/
theorem charge_creates_two_rows_witness :
    chargePaymentActivity [⟨7, "o0", 5, .SUCCEEDED, some "T0"⟩] 8 "o1" 20 false "TX1"
      = ⟨[⟨7, "o0", 5, .SUCCEEDED, some "T0"⟩, ⟨8, "o1", 20, .FAILED, none⟩,
          ⟨9, "o1", 20, .FAILED, none⟩], none⟩ := by
  have h := charge_creates_two_rows [⟨7, "o0", 5, .SUCCEEDED, some "T0"⟩] 8 "o1" 20
    false "TX1" (by decide)
  simpa using h

/-! ### Saga orchestrator

`processOrderWorkflow`: forward steps, error classification in the catch
block, and the sequential compensation block.  Activity outcomes are an
environment: each activity of one run is invoked at most once with fixed
arguments, except `updateOrderStatus`, whose outcome varies with the
status argument; a failure carries the cause's error name (the catch block
dispatches on `cause.name`). -/

/-- The `OrderStatus` enum of the Prisma schema. -/
inductive OrderStatus where
  | PENDING
  | PROCESSING
  | PAYMENT_FAILED
  | PAID
  | INVENTORY_CHECK_FAILED
  | AWAITING_FULFILLMENT
  | FULFILLMENT_ISSUE
  | READY_FOR_PICKUP
  | SHIPPED
  | COMPLETED
  | CANCELLED
  | REFUNDING
  | REFUNDED
deriving DecidableEq, Repr

/-- An error reaching the workflow's catch block: an
`wf.ActivityFailure` carrying its cause's error name and message, a
`wf.CancelledFailure`, or any other workflow error. -/
inductive WfFailure where
  | activity (causeName : String) (message : String)
  | cancelled
  | other (message : String)
deriving DecidableEq, Repr

/-- The `.message` of the raised error. -/
def WfFailure.message : WfFailure → String
  | .activity _ m => m
  | .cancelled => "Workflow was cancelled."
  | .other m => m

/-- The catch block's terminal-status classification: `PaymentFailedError`
→ PAYMENT_FAILED, `InsufficientStockError` → INVENTORY_CHECK_FAILED, any
other activity failure → CANCELLED, cancellation → CANCELLED, any other
workflow error → CANCELLED. -/
def classifyStatus : WfFailure → OrderStatus
  | .activity n _ =>
    if n = "PaymentFailedError" then .PAYMENT_FAILED
    else if n = "InsufficientStockError" then .INVENTORY_CHECK_FAILED
    else .CANCELLED
  | .cancelled => .CANCELLED
  | .other _ => .CANCELLED

/-- The catch block's `failureReason` assignment. -/
def classifyReason : WfFailure → String
  | .activity n m =>
    if n = "PaymentFailedError" then "Payment was declined or failed."
    else if n = "InsufficientStockError" then "One or more items are out of stock."
    else "Activity execution failed: " ++ m
  | .cancelled => "Workflow was cancelled."
  | .other m => "Workflow execution error: " ++ m

/-- A `proxyActivities` retry configuration. -/
structure RetryPolicy where
  initialIntervalSeconds : Nat
  backoffCoefficient : Nat
  maximumAttempts : Nat
  nonRetryableErrorTypes : List String
deriving DecidableEq, Repr

/-- The forward-step `proxyActivities` retry configuration. -/
def forwardRetryPolicy : RetryPolicy :=
  ⟨2, 2, 5, ["PaymentFailedError", "InsufficientStockError"]⟩

/-- The compensation `proxyActivities` retry configuration. -/
def compensationRetryPolicy : RetryPolicy := ⟨5, 2, 10, []⟩

/-- Outcomes of the activities of one workflow run.
`chargePayment` yields `(transactionId, paymentRecordId)`. -/
structure ActivityEnv where
  createPendingOrder : Except WfFailure String
  updateOrderStatus : OrderStatus → Except WfFailure Unit
  chargePayment : Except WfFailure (String × String)
  validateAndDecreaseInventory : Except WfFailure Unit
  notifyKitchen : Except WfFailure Unit
  sendConfirmationEmail : Except WfFailure Unit
  refundPayment : Except WfFailure Unit
  restoreInventory : Except WfFailure Unit
  updateOrderStatusComp : OrderStatus → Except WfFailure Unit
  sendFailureEmail : Except WfFailure Unit

/-- Observable side-effecting calls of one run. Forward status writes are
recorded on success (the database row actually changed); compensation
events record the invocation of the compensation activity. -/
inductive WfEvent where
  | orderCreated (orderId : String)
  | statusUpdate (orderId : String) (s : OrderStatus)
  | compRefund (paymentRecordId : String)
  | compRestoreInventory (orderId : String)
  | compStatusUpdate (orderId : String) (s : OrderStatus)
  | compFailureEmail (orderId : String) (reason : String)
deriving DecidableEq, Repr

deriving instance DecidableEq for Except

/-- A finished run: the workflow's return value or raised error, plus the
recorded calls. -/
structure WfResult where
  result : Except String (String × OrderStatus)
  events : List WfEvent
deriving DecidableEq, Repr

/-- Compensation steps C and D: the terminal status update through the
compensation proxy, then the failure email; a raise aborts the rest. -/
def compStatusAndEmail (env : ActivityEnv) (oid : String) (fs : OrderStatus)
    (reason : String) : Except WfFailure Unit × List WfEvent :=
  match env.updateOrderStatusComp fs with
  | .error e => (.error e, [.compStatusUpdate oid fs])
  | .ok _ =>
    match env.sendFailureEmail with
    | .error e => (.error e, [.compStatusUpdate oid fs, .compFailureEmail oid reason])
    | .ok _ => (.ok (), [.compStatusUpdate oid fs, .compFailureEmail oid reason])

/-- Compensation step B onwards: restore inventory when it was
decremented, then steps C and D; a raise aborts the rest. -/
def compRestore (env : ActivityEnv) (oid : String) (invUpd : Bool) (fs : OrderStatus)
    (reason : String) : Except WfFailure Unit × List WfEvent :=
  if invUpd then
    match env.restoreInventory with
    | .error e => (.error e, [.compRestoreInventory oid])
    | .ok _ =>
      let rest := compStatusAndEmail env oid fs reason
      (rest.1, .compRestoreInventory oid :: rest.2)
  else compStatusAndEmail env oid fs reason

/-- The compensation block of the catch handler: refund when a payment
record id exists, then restore inventory when it was decremented, then the
terminal status update, then the failure email — sequentially, inside one
try/catch, so the first raising step aborts all later ones. -/
def runCompensation (env : ActivityEnv) (oid : String) (pid? : Option String)
    (invUpd : Bool) (fs : OrderStatus) (reason : String) :
    Except WfFailure Unit × List WfEvent :=
  match pid? with
  | some pid =>
    match env.refundPayment with
    | .error e => (.error e, [.compRefund pid])
    | .ok _ =>
      let rest := compRestore env oid invUpd fs reason
      (rest.1, .compRefund pid :: rest.2)
  | none => compRestore env oid invUpd fs reason

/-- The catch block: classify the error, and when an order id was obtained
run the compensation block — rethrowing a combined error when compensation
itself raised, otherwise returning `{orderId, finalStatus}`; with no order
id, return `{orderId: 'N/A', finalStatus}` with no compensation. -/
def handleFailure (env : ActivityEnv) (err : WfFailure) (orderId? : Option String)
    (pid? : Option String) (invUpd : Bool) (events : List WfEvent) : WfResult :=
  let finalStatus := classifyStatus err
  let failureReason := classifyReason err
  match orderId? with
  | none => ⟨.ok ("N/A", finalStatus), events⟩
  | some oid =>
    let comp := runCompensation env oid pid? invUpd finalStatus failureReason
    match comp.1 with
    | .error ce =>
      ⟨.error ("Compensation failed after initial error: " ++ ce.message
          ++ ". Original error: " ++ err.message), events ++ comp.2⟩
    | .ok _ => ⟨.ok (oid, finalStatus), events ++ comp.2⟩

/-- `processOrderWorkflow`: create the PENDING order, mark PROCESSING,
charge (keeping the payment record id), mark PAID, decrement inventory
(setting `inventoryUpdated`), mark AWAITING_FULFILLMENT, notify the
kitchen, send the confirmation email, mark COMPLETED and return; any
failure falls into `handleFailure` with the progress made so far. -/
def processOrderWorkflow (env : ActivityEnv) : WfResult :=
  match env.createPendingOrder with
  | .error err => handleFailure env err none none false []
  | .ok orderId =>
    let evs0 := [WfEvent.orderCreated orderId]
    match env.updateOrderStatus .PROCESSING with
    | .error err => handleFailure env err (some orderId) none false evs0
    | .ok _ =>
      let evs1 := evs0 ++ [WfEvent.statusUpdate orderId .PROCESSING]
      match env.chargePayment with
      | .error err => handleFailure env err (some orderId) none false evs1
      | .ok payment =>
        match env.updateOrderStatus .PAID with
        | .error err => handleFailure env err (some orderId) (some payment.2) false evs1
        | .ok _ =>
          let evs2 := evs1 ++ [WfEvent.statusUpdate orderId .PAID]
          match env.validateAndDecreaseInventory with
          | .error err => handleFailure env err (some orderId) (some payment.2) false evs2
          | .ok _ =>
            match env.updateOrderStatus .AWAITING_FULFILLMENT with
            | .error err => handleFailure env err (some orderId) (some payment.2) true evs2
            | .ok _ =>
              let evs3 := evs2 ++ [WfEvent.statusUpdate orderId .AWAITING_FULFILLMENT]
              match env.notifyKitchen with
              | .error err => handleFailure env err (some orderId) (some payment.2) true evs3
              | .ok _ =>
                match env.sendConfirmationEmail with
                | .error err => handleFailure env err (some orderId) (some payment.2) true evs3
                | .ok _ =>
                  match env.updateOrderStatus .COMPLETED with
                  | .error err => handleFailure env err (some orderId) (some payment.2) true evs3
                  | .ok _ =>
                    ⟨.ok (orderId, .COMPLETED),
                      evs3 ++ [WfEvent.statusUpdate orderId .COMPLETED]⟩

/-- The order statuses actually written to the order row, in order
(creation writes PENDING). -/
def statusTrace (evs : List WfEvent) : List OrderStatus :=
  evs.filterMap fun e =>
    match e with
    | .orderCreated _ => some .PENDING
    | .statusUpdate _ s => some s
    | .compStatusUpdate _ s => some s
    | _ => none

/-- A run of the workflow in which every activity succeeds. -/
def envAllOk : ActivityEnv where
  createPendingOrder := .ok "o1"
  updateOrderStatus := fun _ => .ok ()
  chargePayment := .ok ("tx1", "p1")
  validateAndDecreaseInventory := .ok ()
  notifyKitchen := .ok ()
  sendConfirmationEmail := .ok ()
  refundPayment := .ok ()
  restoreInventory := .ok ()
  updateOrderStatusComp := fun _ => .ok ()
  sendFailureEmail := .ok ()

/-- A run where the inventory step fails after payment succeeded and the
refund compensation itself raises. -/
def envRefundFails : ActivityEnv :=
  { envAllOk with
    validateAndDecreaseInventory := .error (.activity "InsufficientStockError" "out of stock")
    refundPayment := .error (.other "refund gateway down") }

/-- A run where the very first activity fails. -/
def envNoOrder : ActivityEnv :=
  { envAllOk with createPendingOrder := .error (.other "db connection lost") }

/-- A run where the charge is declined and all compensations succeed. -/
def envChargeFails : ActivityEnv :=
  { envAllOk with chargePayment := .error (.activity "PaymentFailedError" "declined") }

/-- **C6.** The catch block classifies a payment-declined failure to
PAYMENT_FAILED, an insufficient-stock failure to INVENTORY_CHECK_FAILED, a
cancellation to CANCELLED and any other failure to CANCELLED; the two
named business-rule failures are in the forward proxy's non-retryable
list, while other activity failures get exponential backoff (initial
interval 2s, coefficient 2) capped at 5 attempts. -/
theorem error_classifier_spec :
    (∀ m, classifyStatus (.activity "PaymentFailedError" m) = .PAYMENT_FAILED) ∧
    (∀ m, classifyStatus (.activity "InsufficientStockError" m) = .INVENTORY_CHECK_FAILED) ∧
    classifyStatus .cancelled = .CANCELLED ∧
    (∀ n m, n ≠ "PaymentFailedError" → n ≠ "InsufficientStockError" →
      classifyStatus (.activity n m) = .CANCELLED) ∧
    (∀ m, classifyStatus (.other m) = .CANCELLED) ∧
    forwardRetryPolicy.nonRetryableErrorTypes
      = ["PaymentFailedError", "InsufficientStockError"] ∧
    forwardRetryPolicy.maximumAttempts = 5 ∧
    forwardRetryPolicy.backoffCoefficient = 2 ∧
    forwardRetryPolicy.initialIntervalSeconds = 2 := by
  refine ⟨fun m => rfl, fun m => rfl, rfl, fun n m hn1 hn2 => ?_,
    fun m => rfl, rfl, rfl, rfl, rfl⟩
  simp [classifyStatus, hn1, hn2]

/-- Witness for C6: an infrastructure failure classifies to CANCELLED. -/
theorem error_classifier_spec_witness :
    classifyStatus (.activity "TimeoutError" "deadline exceeded") = .CANCELLED :=
  error_classifier_spec.2.2.2.1 "TimeoutError" "deadline exceeded" (by decide) (by decide)

/-- **C7.** When every forward activity succeeds, the order's status is
written exactly in the order PENDING (at creation), PROCESSING, PAID,
AWAITING_FULFILLMENT, COMPLETED — nothing skipped, repeated or reordered —
and the run returns `{orderId, finalStatus = COMPLETED}`. -/
theorem happy_path_statuses (env : ActivityEnv) (oid : String) (payment : String × String)
    (h1 : env.createPendingOrder = .ok oid)
    (h2 : ∀ s, env.updateOrderStatus s = .ok ())
    (h3 : env.chargePayment = .ok payment)
    (h4 : env.validateAndDecreaseInventory = .ok ())
    (h5 : env.notifyKitchen = .ok ())
    (h6 : env.sendConfirmationEmail = .ok ()) :
    (processOrderWorkflow env).result = .ok (oid, .COMPLETED) ∧
    statusTrace (processOrderWorkflow env).events
      = [.PENDING, .PROCESSING, .PAID, .AWAITING_FULFILLMENT, .COMPLETED] := by
  simp [processOrderWorkflow, statusTrace, h1, h2, h3, h4, h5, h6]

/-- Witness for C7: the all-success run. -/
theorem happy_path_statuses_witness :
    (processOrderWorkflow envAllOk).result = .ok ("o1", .COMPLETED) ∧
    statusTrace (processOrderWorkflow envAllOk).events
      = [.PENDING, .PROCESSING, .PAID, .AWAITING_FULFILLMENT, .COMPLETED] :=
  happy_path_statuses envAllOk "o1" ("tx1", "p1") rfl (fun _ => rfl) rfl rfl rfl rfl

theorem compStatusAndEmail_ok (env : ActivityEnv) (oid : String) (fs : OrderStatus)
    (reason : String) (hu : ∀ s, env.updateOrderStatusComp s = .ok ())
    (he : env.sendFailureEmail = .ok ()) :
    (compStatusAndEmail env oid fs reason).1 = .ok () := by
  simp [compStatusAndEmail, hu, he]

theorem compRestore_ok (env : ActivityEnv) (oid : String) (invUpd : Bool)
    (fs : OrderStatus) (reason : String) (hi : env.restoreInventory = .ok ())
    (hu : ∀ s, env.updateOrderStatusComp s = .ok ())
    (he : env.sendFailureEmail = .ok ()) :
    (compRestore env oid invUpd fs reason).1 = .ok () := by
  cases invUpd <;>
    simp [compRestore, hi, compStatusAndEmail_ok env oid fs reason hu he]

theorem runCompensation_ok (env : ActivityEnv) (oid : String) (pid? : Option String)
    (invUpd : Bool) (fs : OrderStatus) (reason : String)
    (hr : env.refundPayment = .ok ()) (hi : env.restoreInventory = .ok ())
    (hu : ∀ s, env.updateOrderStatusComp s = .ok ())
    (he : env.sendFailureEmail = .ok ()) :
    (runCompensation env oid pid? invUpd fs reason).1 = .ok () := by
  cases pid? <;>
    simp [runCompensation, hr, compRestore_ok env oid invUpd fs reason hi hu he]

theorem handleFailure_ok (env : ActivityEnv) (err : WfFailure) (oid? : Option String)
    (pid? : Option String) (invUpd : Bool) (evs : List WfEvent)
    (hr : env.refundPayment = .ok ()) (hi : env.restoreInventory = .ok ())
    (hu : ∀ s, env.updateOrderStatusComp s = .ok ())
    (he : env.sendFailureEmail = .ok ()) :
    ∃ oid fs, (handleFailure env err oid? pid? invUpd evs).result = .ok (oid, fs) := by
  cases oid? with
  | none => exact ⟨"N/A", classifyStatus err, rfl⟩
  | some oid =>
    refine ⟨oid, classifyStatus err, ?_⟩
    have h := runCompensation_ok env oid pid? invUpd (classifyStatus err)
      (classifyReason err) hr hi hu he
    simp [handleFailure, h]

/-- **C9.** Whenever the compensation activities succeed, every run of the
saga — fully successful or failing at any forward step — ends in a normal
return of `{orderId, finalStatus}` rather than propagating the forward
error to the caller. -/
theorem saga_returns_normally (env : ActivityEnv)
    (hr : env.refundPayment = .ok ()) (hi : env.restoreInventory = .ok ())
    (hu : ∀ s, env.updateOrderStatusComp s = .ok ())
    (he : env.sendFailureEmail = .ok ()) :
    ∃ oid fs, (processOrderWorkflow env).result = .ok (oid, fs) := by
  unfold processOrderWorkflow
  cases h1 : env.createPendingOrder with
  | error e => exact handleFailure_ok env e none none false [] hr hi hu he
  | ok oid =>
    cases h2 : env.updateOrderStatus .PROCESSING with
    | error e => exact handleFailure_ok env e (some oid) none false _ hr hi hu he
    | ok u2 =>
      cases h3 : env.chargePayment with
      | error e => exact handleFailure_ok env e (some oid) none false _ hr hi hu he
      | ok payment =>
        cases h4 : env.updateOrderStatus .PAID with
        | error e =>
          exact handleFailure_ok env e (some oid) (some payment.2) false _ hr hi hu he
        | ok u4 =>
          cases h5 : env.validateAndDecreaseInventory with
          | error e =>
            exact handleFailure_ok env e (some oid) (some payment.2) false _ hr hi hu he
          | ok u5 =>
            cases h6 : env.updateOrderStatus .AWAITING_FULFILLMENT with
            | error e =>
              exact handleFailure_ok env e (some oid) (some payment.2) true _ hr hi hu he
            | ok u6 =>
              cases h7 : env.notifyKitchen with
              | error e =>
                exact handleFailure_ok env e (some oid) (some payment.2) true _ hr hi hu he
              | ok u7 =>
                cases h8 : env.sendConfirmationEmail with
                | error e =>
                  exact handleFailure_ok env e (some oid) (some payment.2) true _ hr hi hu he
                | ok u8 =>
                  cases h9 : env.updateOrderStatus .COMPLETED with
                  | error e =>
                    exact handleFailure_ok env e (some oid) (some payment.2) true _ hr hi hu he
                  | ok u9 => exact ⟨oid, .COMPLETED, rfl⟩

/-- Witness for C9: a declined charge still yields a normal return. -/
theorem saga_returns_normally_witness :
    ∃ oid fs, (processOrderWorkflow envChargeFails).result = .ok (oid, fs) :=
  saga_returns_normally envChargeFails rfl rfl (fun _ => rfl) rfl

/-- **C10.** When the first step fails so that no order id is obtained,
no compensation step runs at all and the workflow returns the literal
orderId 'N/A' with the classified final status. -/
theorem no_order_no_compensation (env : ActivityEnv) (err : WfFailure)
    (h : env.createPendingOrder = .error err) :
    processOrderWorkflow env = ⟨.ok ("N/A", classifyStatus err), []⟩ := by
  unfold processOrderWorkflow
  rw [h]
  rfl

/-- Witness for C10. -/
theorem no_order_no_compensation_witness :
    processOrderWorkflow envNoOrder = ⟨.ok ("N/A", .CANCELLED), []⟩ :=
  no_order_no_compensation envNoOrder (.other "db connection lost") rfl

/-- **C3 (counterexample).** In a run where the inventory step fails after
payment succeeded and the refund compensation raises, the terminal status
update and the failure notification are never attempted (no
compStatusUpdate and no compFailureEmail event is recorded) and the
workflow raises — contradicting best-effort breadth of compensation. -/
theorem compensation_not_breadth_counterexample :
    processOrderWorkflow envRefundFails
      = ⟨.error ("Compensation failed after initial error: refund gateway down."
            ++ " Original error: out of stock"),
          [.orderCreated "o1", .statusUpdate "o1" .PROCESSING,
            .statusUpdate "o1" .PAID, .compRefund "p1"]⟩ := by
  rfl

/-- **C3 (amended).** The compensation steps (refund, inventory restore,
terminal status update, failure notification) run sequentially inside one
guard: the first compensation step that raises aborts every remaining
compensation step, and the workflow then raises a combined error instead
of returning a result. -/
theorem compensation_aborts_on_first_failure (env : ActivityEnv) (oid pid : String)
    (invUpd : Bool) (fs : OrderStatus) (reason : String) (e : WfFailure) :
    (env.refundPayment = .error e →
      runCompensation env oid (some pid) invUpd fs reason
        = (.error e, [.compRefund pid])) ∧
    (env.refundPayment = .ok () → env.restoreInventory = .error e →
      runCompensation env oid (some pid) true fs reason
        = (.error e, [.compRefund pid, .compRestoreInventory oid])) ∧
    (env.refundPayment = .ok () → env.restoreInventory = .ok () →
      env.updateOrderStatusComp fs = .error e →
      runCompensation env oid (some pid) true fs reason
        = (.error e, [.compRefund pid, .compRestoreInventory oid,
            .compStatusUpdate oid fs])) ∧
    (∀ err evs, (runCompensation env oid (some pid) invUpd (classifyStatus err)
        (classifyReason err)).1 = .error e →
      (handleFailure env err (some oid) (some pid) invUpd evs).result
        = .error ("Compensation failed after initial error: " ++ e.message
            ++ ". Original error: " ++ err.message)) := by
  refine ⟨fun hrf => ?_, fun hrf hri => ?_, fun hrf hri hus => ?_, fun err evs hc => ?_⟩
  · simp [runCompensation, hrf]
  · simp [runCompensation, compRestore, hrf, hri]
  · simp [runCompensation, compRestore, compStatusAndEmail, hrf, hri, hus]
  · simp [handleFailure, hc]

/-- Witness for the C3 amended claim: when the refund compensation raises,
only the refund is attempted. -/
theorem compensation_aborts_on_first_failure_witness :
    runCompensation envRefundFails "o1" (some "p1") false .INVENTORY_CHECK_FAILED
        "One or more items are out of stock."
      = (.error (.other "refund gateway down"), [.compRefund "p1"]) :=
  (compensation_aborts_on_first_failure envRefundFails "o1" "p1" false
    .INVENTORY_CHECK_FAILED "One or more items are out of stock."
    (.other "refund gateway down")).1 rfl

end ChickenBe
